import Mathlib

/-!
# Verification of the portfolio-mcp analysis core (`src/portfolio_mcp/tools.py`)

Shallow embedding conventions:

* Python `float` values are modelled as exact rationals (`Rat`); the display-only
  `round(x, n)` calls in the source are omitted, so every candidate/holding field
  carries the exact value that the source computes before rounding.
* A CSV cell is an `Option String`: `none` models a pandas `NaN` cell (`pd.isna`),
  `some s` a string cell.
* A Python function that can raise (e.g. `float(...)` on junk, `parts[3]` on a
  short list) is embedded as an `Option`-returning function; `none` models the
  exception propagating out of the call.
* `datetime`/`pd.to_datetime` values are modelled at day granularity as `Int`
  day numbers; the date-parsing function is an injected parameter `dateVal`.
* Python string primitives (`str.strip`, `str.split`, `str.replace`) are
  re-implemented structurally on `List Char` so that all definitions evaluate
  inside the kernel.
-/

unseal Rat.add Rat.mul Rat.sub Rat.inv Rat.ofScientific

namespace PortfolioMcp


/-- Python whitespace for `str.strip()` / `str.split()` (ASCII fragment:
space, tab, newline, carriage return, vertical tab, form feed). -/
def pyIsSpace (c : Char) : Bool :=
  c = ' ' ∨ c = '\t' ∨ c = '\n' ∨ c = '\r' ∨ c.toNat = 11 ∨ c.toNat = 12

/-- Embedding of Python `s.strip()`: drop leading and trailing whitespace. -/
def pyStrip (s : String) : String :=
  ⟨((s.data.dropWhile pyIsSpace).reverse.dropWhile pyIsSpace).reverse⟩

/-- One pass of Python `s.replace(pat, rep)` over a character list, replacing
non-overlapping occurrences left to right.  The `fuel` argument (instantiated
with the length of the list) only makes the recursion structural; it never
runs out because each step consumes at least one character. -/
def replaceAux (pat rep : List Char) : Nat → List Char → List Char
  | _, [] => []
  | 0, cs => cs
  | fuel + 1, c :: cs =>
    if pat ≠ [] ∧ pat.isPrefixOf (c :: cs) then
      rep ++ replaceAux pat rep fuel ((c :: cs).drop pat.length)
    else
      c :: replaceAux pat rep fuel cs

/-- Embedding of Python `s.replace(pat, rep)` (for non-empty `pat`). -/
def pyReplace (s pat rep : String) : String :=
  ⟨replaceAux pat.data rep.data s.data.length s.data⟩

/-- Split a character list on `'.'` (used by the `float` literal grammar). -/
def splitDot : List Char → List (List Char)
  | [] => [[]]
  | c :: cs =>
    if c = '.' then [] :: splitDot cs
    else
      match splitDot cs with
      | [] => [[c]]
      | t :: ts => (c :: t) :: ts

/-- Helper for `pySplit`: accumulate the current (reversed) token. -/
def pySplitAux : List Char → List Char → List String
  | [], acc => if acc = [] then [] else [⟨acc.reverse⟩]
  | c :: cs, acc =>
    if pyIsSpace c then
      if acc = [] then pySplitAux cs [] else ⟨acc.reverse⟩ :: pySplitAux cs []
    else
      pySplitAux cs (c :: acc)

/-- Embedding of Python `s.split()` (no separator argument): split on runs of
whitespace, discarding empty pieces. -/
def pySplit (s : String) : List String :=
  pySplitAux s.data []

/-- Value of a list of decimal digit characters (most significant first);
`none` if any character is not an ASCII digit.  The empty list has value
`some 0` (callers check non-emptiness separately). -/
def digitsVal : List Char → Option Nat
  | [] => some 0
  | c :: cs =>
    if c.isDigit then
      (digitsVal cs).map (fun n => (c.toNat - 48) * 10 ^ cs.length + n)
    else
      none

/-- Embedding of Python `float(s)` restricted to plain decimal literals
`[+|-] digits [. digits]` with at least one digit, surrounded by optional
whitespace (Python's `float` ignores surrounding whitespace).  The exponent /
`inf` / `nan` / underscore forms accepted by Python do not occur in this code
base's inputs and are modelled as failures.  `none` models `ValueError`. -/
def pyFloat? (s : String) : Option Rat :=
  let t := (pyStrip s).data
  let signed : List Char × Int :=
    match t with
    | '+' :: rest => (rest, 1)
    | '-' :: rest => (rest, -1)
    | rest => (rest, 1)
  match splitDot signed.1 with
  | [ip] =>
    if ip = [] then none
    else (digitsVal ip).map (fun n => (signed.2 : Rat) * n)
  | [ip, fp] =>
    if ip = [] ∧ fp = [] then none
    else
      match digitsVal ip, digitsVal fp with
      | some i, some f =>
        some ((signed.2 : Rat) * ((i : Rat) + (f : Rat) / ((10 ^ fp.length : Nat) : Rat)))
      | _, _ => none
  | _ => none

/-- Embedding of `clean_currency` (tools.py:119-128).  Strips Schwab Excel
escaping (`=""`, `""`, `="`, `"`), then `$`, `,`, and maps `--`/`N/A`
occurrences to `0`, strips whitespace, and parses; empty result parses to 0. -/
def clean_currency (val : Option String) : Option Rat :=
  match val with
  | none => some 0
  | some v =>
    let s := pyReplace (pyReplace (pyReplace (pyReplace v "=\"\"" "") "\"\"" "") "=\"" "") "\"" ""
    let s := pyReplace (pyReplace (pyReplace (pyReplace s "$" "") "," "") "--" "0") "N/A" "0"
    let s := pyStrip s
    if s = "" then some 0 else pyFloat? s

/-- Embedding of `clean_pct` (tools.py:131-139).  Note: unlike `clean_currency`
it only strips the doubled-quote artifacts `=""` and `""` (not `="` or a bare
`"`), strips `%`, maps `--`/`N/A` to `0`, and divides by 100; there is no
whitespace strip and no empty-after-strip guard beyond the emptiness test. -/
def clean_pct (val : Option String) : Option Rat :=
  match val with
  | none => some 0
  | some v =>
    let s := pyReplace (pyReplace v "=\"\"" "") "\"\"" ""
    let s := pyReplace (pyReplace (pyReplace s "%" "") "--" "0") "N/A" "0"
    if s = "" then some 0 else (pyFloat? s).map (fun x => x / 100)

/-- Embedding of `clean_delta` (tools.py:142-146): `NaN`/`N/A`/`--`/blank ↦ 0,
otherwise the absolute value of the parsed number. -/
def clean_delta (val : Option String) : Option Rat :=
  match val with
  | none => some 0
  | some s =>
    if pyStrip s = "N/A" ∨ pyStrip s = "--" ∨ pyStrip s = "" then some 0
    else (pyFloat? s).map (fun x => |x|)

/-- Result of `parse_option_symbol`. -/
structure OptionSymbolParts where
  underlying : String
  exp : String
  strike : Rat
  opt_type : String
deriving DecidableEq, Repr

/-- The dict built by `parse_option_symbol` from the whitespace tokens of the
symbol: requires at least four tokens (an `IndexError` on `parts[0..3]` is
`none`) and a parseable third token (a `ValueError` from `float(parts[2])` is
`none`); any tokens past the fourth are ignored. -/
def partsToSymbol : List String → Option OptionSymbolParts
  | p0 :: p1 :: p2 :: p3 :: _ =>
    (pyFloat? p2).map (fun k =>
      { underlying := p0, exp := p1, strike := k, opt_type := p3 })
  | _ => none

/-- Embedding of `parse_option_symbol` (tools.py:149-160). -/
def parse_option_symbol (sym : String) : Option OptionSymbolParts :=
  partsToSymbol (pySplit sym)

/-- An equity row of the parsed portfolio CSV (`Security Type` ∈
{Equity, ETFs & Closed End Funds}).  `qty` carries the result of the `int(...)`
conversions the source applies to the `Qty (Quantity)` cell; the currency /
percent cells stay raw and are normalized at each use site, as in the source. -/
structure EquityRow where
  symbol : String
  qty : Int
  price : Option String
  mktVal : Option String
  gainPct : Option String
deriving DecidableEq, Repr

/-- An option row of the parsed portfolio CSV (`Security Type` = Option). -/
structure OptionRow where
  symbol : String
  qty : Int
  price : Option String
  mktVal : Option String
  delta : Option String
  gainPct : Option String
deriving DecidableEq, Repr

/-- An alert produced by `analyze_portfolio`, one constructor per emission site,
carrying the data interpolated into the message text (message rendering is
abstracted away). -/
inductive Alert where
  | itm (underlying opt_type : String) (strike price : Rat)
  | cashShortfall (exposure cash shortage : Rat)
  | highDelta (underlying : String) (delta : Rat) (opt_type : String) (strike : Rat)
  | nearExpLetExpire (underlying opt_type : String) (strike : Rat) (dte : Int) (gain : Rat)
  | nearExpRollClose (underlying opt_type : String) (strike : Rat) (dte : Int)
  | nearExpPlain (underlying opt_type : String) (strike : Rat) (dte : Int)
  | unrealizedLoss (symbol : String) (gain_pct : Rat)
  | nakedShort (underlying opt_type : String) (strike : Rat)
  | noAlerts
deriving DecidableEq, Repr

/-- The first equity row whose `Symbol` equals `u`
(`equities[equities['Symbol'] == o['underlying']]` + `.iloc[0]`). -/
def findEquity (equities : List EquityRow) (u : String) : Option EquityRow :=
  equities.find? (fun e => e.symbol = u)

/-- ITM rule (tools.py:200-214): for each short option whose underlying is held,
alert when (call and spot > strike) or (put and spot < strike). -/
def itmAlert (equities : List EquityRow) (r : OptionRow) : Option (List Alert) :=
  if r.qty ≥ 0 then some [] else do
    let o ← parse_option_symbol r.symbol
    match findEquity equities o.underlying with
    | none => some []
    | some eq => do
      let price ← clean_currency eq.price
      if (o.opt_type = "C" ∧ price > o.strike) ∨ (o.opt_type = "P" ∧ price < o.strike) then
        pure [Alert.itm o.underlying o.opt_type o.strike price]
      else
        pure []

/-- Contribution of one row to the short-put cash exposure (tools.py:217-224):
`abs(qty) * strike * 100` for short puts, 0 otherwise. -/
def putExposureRow (r : OptionRow) : Option Rat :=
  if r.qty ≥ 0 then some 0 else do
    let o ← parse_option_symbol r.symbol
    pure (if o.opt_type = "P" then ((r.qty.natAbs : Rat)) * o.strike * 100 else 0)

/-- Total short-put cash exposure of the option rows. -/
def shortPutExposure (options : List OptionRow) : Option Rat :=
  (options.mapM putExposureRow).map (fun l => l.sum)

/-- High-delta rule (tools.py:231-237): short options with `clean_delta > 0.5`. -/
def highDeltaAlert (r : OptionRow) : Option (List Alert) :=
  if r.qty ≥ 0 then some [] else do
    let o ← parse_option_symbol r.symbol
    let d ← clean_delta r.delta
    pure (if d > 0.5 then [Alert.highDelta o.underlying d o.opt_type o.strike] else [])

/-- The deep-OTM test of the near-expiration rule (tools.py:254-257): more
than 5% out of the money relative to the strike. -/
def deepOtm (opt_type : String) (price strike : Rat) : Bool :=
  if opt_type = "C" then price < strike * 0.95 else price > strike * 1.05

/-- Near-expiration rule for one row (tools.py:240-265).  `dateVal` embeds
`pd.to_datetime(...).normalize()` as a day number and `today` embeds
`pd.Timestamp.now().normalize()`; `dte` is their difference in days. -/
def nearExpAlert (dateVal : String → Option Int) (today : Int)
    (equities : List EquityRow) (r : OptionRow) : Option (List Alert) := do
  let o ← parse_option_symbol r.symbol
  let expDay ← dateVal o.exp
  let dte := expDay - today
  if dte > 7 then pure [] else do
    let price : Option Rat ←
      match findEquity equities o.underlying with
      | none => pure none
      | some eq => (clean_currency eq.price).map some
    match price with
    | some p =>
      if r.qty < 0 ∧ p ≠ 0 then
        if deepOtm o.opt_type p o.strike then do
          let gain ← clean_pct r.gainPct
          pure [Alert.nearExpLetExpire o.underlying o.opt_type o.strike dte gain]
        else
          pure [Alert.nearExpRollClose o.underlying o.opt_type o.strike dte]
      else
        pure [Alert.nearExpPlain o.underlying o.opt_type o.strike dte]
    | none => pure [Alert.nearExpPlain o.underlying o.opt_type o.strike dte]

/-- Unrealized-loss rule (tools.py:268-271): equities with gain percent below
-10%. -/
def lossAlert (e : EquityRow) : Option (List Alert) := do
  let g ← clean_pct e.gainPct
  pure (if g < -0.10 then [Alert.unrealizedLoss e.symbol g] else [])

/-- Naked-short rule (tools.py:274-280): short options whose underlying is not
held. -/
def nakedAlert (equities : List EquityRow) (r : OptionRow) : Option (List Alert) :=
  if r.qty ≥ 0 then some [] else do
    let o ← parse_option_symbol r.symbol
    pure (if (findEquity equities o.underlying).isNone then
            [Alert.nakedShort o.underlying o.opt_type o.strike]
          else [])

/-- A row of the flattened holdings list (tools.py:289-314); option-only fields
are `none` on equity entries. -/
structure Holding where
  symbol : String
  type : String
  underlying : Option String
  strike : Option Rat
  opt_type : Option String
  expiration : Option String
  qty : Int
  price : Rat
  value : Rat
  delta : Option (Option Rat)
  gain_pct : Rat
deriving DecidableEq, Repr

/-- Holdings entry for an equity row (tools.py:290-298). -/
def equityHolding (e : EquityRow) : Option Holding := do
  let p ← clean_currency e.price
  let v ← clean_currency e.mktVal
  let g ← clean_pct e.gainPct
  pure { symbol := e.symbol, type := "equity", underlying := none, strike := none,
         opt_type := none, expiration := none, qty := e.qty, price := p, value := v,
         delta := none, gain_pct := g }

/-- Holdings entry for an option row (tools.py:300-314).  The delta field is
`clean_delta` unless the raw cell strips to `N/A`/`--`/empty, in which case it
is `None` (a `NaN` cell stringifies to `"nan"`, so it goes through
`clean_delta` and becomes 0). -/
def optionHolding (r : OptionRow) : Option Holding := do
  let o ← parse_option_symbol r.symbol
  let p ← clean_currency r.price
  let v ← clean_currency r.mktVal
  let d : Option Rat ←
    match r.delta with
    | none => (clean_delta none).map some
    | some s =>
      if pyStrip s = "N/A" ∨ pyStrip s = "--" ∨ pyStrip s = "" then pure none
      else (clean_delta (some s)).map some
  let g ← clean_pct r.gainPct
  pure { symbol := r.symbol, type := "option", underlying := some o.underlying,
         strike := some o.strike, opt_type := some o.opt_type, expiration := some o.exp,
         qty := r.qty, price := p, value := v, delta := some d, gain_pct := g }

/-- The summary block of `analyze_portfolio` (tools.py:318-323). -/
structure Summary where
  cash : Rat
  equity_value : Rat
  option_value : Rat
  total_value : Rat
deriving DecidableEq, Repr

/-- The full result of `analyze_portfolio`. -/
structure AnalysisResult where
  alerts : List Alert
  summary : Summary
  holdings : List Holding
deriving DecidableEq, Repr

/-- Embedding of `analyze_portfolio` (tools.py:187-325) on an already-parsed
snapshot (equity rows, option rows, cash balance), with the date semantics
injected through `dateVal`/`today`.  Returns `none` when any of the underlying
parses raises. -/
def analyze_portfolio (dateVal : String → Option Int) (today : Int)
    (equities : List EquityRow) (options : List OptionRow) (cash : Rat) :
    Option AnalysisResult := do
  let itmAs ← options.mapM (itmAlert equities)
  let exposure ← shortPutExposure options
  let shortfallAs :=
    if exposure > cash then [Alert.cashShortfall exposure cash (exposure - cash)] else []
  let hdAs ← options.mapM highDeltaAlert
  let neAs ← options.mapM (nearExpAlert dateVal today equities)
  let lossAs ← equities.mapM lossAlert
  let nkAs ← options.mapM (nakedAlert equities)
  let alerts := itmAs.flatten ++ shortfallAs ++ hdAs.flatten ++ neAs.flatten ++
    lossAs.flatten ++ nkAs.flatten
  let alerts := if alerts = [] then [Alert.noAlerts] else alerts
  let eqVals ← equities.mapM (fun e => clean_currency e.mktVal)
  let optVals ← options.mapM (fun r => clean_currency r.mktVal)
  let equity_value := eqVals.sum
  let option_value := optVals.sum
  let holdingsE ← equities.mapM equityHolding
  let holdingsO ← options.mapM optionHolding
  pure { alerts := alerts,
         summary := { cash := cash, equity_value := equity_value,
                      option_value := option_value,
                      total_value := cash + equity_value + option_value },
         holdings := holdingsE ++ holdingsO }

/-- Embedding of `safe_float` (tools.py:442-452) on already-numeric optional
data: `None` (and unparsable/NaN input, which cannot occur for the numeric
snapshot fields modelled here) becomes the 0.0 default. -/
def safe_float (v : Option Rat) : Rat :=
  v.getD 0

/-- `opt.details` of a chain snapshot entry. -/
structure ContractDetails where
  strike_price : Option Rat
deriving DecidableEq, Repr

/-- `opt.greeks` of a chain snapshot entry. -/
structure GreeksData where
  delta : Option Rat
deriving DecidableEq, Repr

/-- `opt.day` of a chain snapshot entry. -/
structure DayData where
  close : Option Rat
  volume : Option Int
deriving DecidableEq, Repr

/-- One entry of `client.list_snapshot_options_chain(...)`; a missing
sub-object (`hasattr` false or falsy attribute) is `none`. -/
structure ChainOption where
  details : Option ContractDetails
  greeks : Option GreeksData
  last_trade : Option Rat
  day : Option DayData
  implied_volatility : Option Rat
  open_interest : Option Int
deriving DecidableEq, Repr

/-- One expiration returned by `get_option_expirations`, bundled with its
days-to-expiration (`(exp_date - today).days`) and the chain snapshot fetch
for it (`none` models the per-expiration fetch raising, which the source
catches and skips). -/
structure Expiration where
  exp : String
  dte : Int
  chain : Option (List ChainOption)
deriving DecidableEq, Repr

/-- The injected market-data gateway state for one ranking call: the quote
(`none` models `get_stock_quote` returning an error dict) and the expiration
list. -/
structure MarketData where
  quote : Option Rat
  expirations : List Expiration
deriving DecidableEq, Repr

/-- A covered-call candidate (tools.py:845-862), with exact (unrounded)
values. -/
structure CCCandidate where
  expiration : String
  dte : Int
  strike : Rat
  last : Rat
  volume : Int
  open_interest : Option Int
  iv : Option Rat
  delta : Rat
  contracts : Int
  premium : Rat
  premium_pct : Rat
  annualized_return : Rat
  upside_to_strike : Rat
  max_return_pct : Rat
  breakeven : Rat
  delta_diff : Rat
deriving DecidableEq, Repr

/-- A cash-secured-put candidate (tools.py:987-1005), with exact (unrounded)
values. -/
structure CSPCandidate where
  expiration : String
  dte : Int
  strike : Rat
  last : Rat
  volume : Int
  open_interest : Option Int
  iv : Option Rat
  delta : Rat
  contracts : Int
  collateral : Rat
  premium : Rat
  premium_pct : Rat
  annualized_return : Rat
  discount_to_current : Rat
  breakeven : Rat
  cost_basis_if_assigned : Rat
  delta_diff : Rat
deriving DecidableEq, Repr

/-- The last-trade price with day-close fallback
(`last_price = safe_float(...); if not last_price and day: ...`). -/
def chainLastPrice (opt : ChainOption) : Rat :=
  let lp := safe_float opt.last_trade
  if lp = 0 then
    match opt.day with
    | some d => safe_float d.close
    | none => lp
  else lp

/-- `iv = safe_float(opt.implied_volatility) * 100 if opt.implied_volatility
else None` (falsy = absent or 0). -/
def chainIv (opt : ChainOption) : Option Rat :=
  match opt.implied_volatility with
  | some v => if v = 0 then none else some (v * 100)
  | none => none

/-- `safe_int(opt.day.volume ...)` for the candidate's volume field. -/
def chainVolume (opt : ChainOption) : Int :=
  (opt.day.bind DayData.volume).getD 0

/-- `safe_int(opt.open_interest) or None` (0 collapses to `None`). -/
def chainOpenInterest (opt : ChainOption) : Option Int :=
  match opt.open_interest with
  | some n => if n = 0 then none else some n
  | none => none

/-- Per-contract filtering and metric computation of `find_covered_call`
(tools.py:802-862): `none` means the contract is skipped by one of the
`continue` guards. -/
def ccProcess (current_price : Rat) (shares : Int) (target_delta min_premium_pct : Rat)
    (exp : String) (dte : Int) (opt : ChainOption) : Option CCCandidate :=
  match opt.details with
  | none => none
  | some details =>
    let strike := safe_float details.strike_price
    if strike ≤ current_price then none else
    let delta := |safe_float (opt.greeks.bind GreeksData.delta)|
    if delta = 0 then none else
    let last_price := chainLastPrice opt
    if last_price ≤ 0 then none else
    let num_contracts := shares.fdiv 100
    let premium := last_price * 100 * (num_contracts : Rat)
    let premium_pct := last_price / current_price * 100
    let annualized_return := if dte > 0 then premium_pct / (dte : Rat) * 365 else 0
    let upside_to_strike := (strike - current_price) / current_price * 100
    if premium_pct < min_premium_pct then none else
    some { expiration := exp, dte := dte, strike := strike, last := last_price,
           volume := chainVolume opt, open_interest := chainOpenInterest opt,
           iv := chainIv opt, delta := delta, contracts := num_contracts,
           premium := premium, premium_pct := premium_pct,
           annualized_return := annualized_return,
           upside_to_strike := upside_to_strike,
           max_return_pct := premium_pct + upside_to_strike,
           breakeven := current_price - last_price,
           delta_diff := |delta - target_delta| }

/-- Per-contract filtering and metric computation of `find_cash_secured_put`
(tools.py:936-1005). -/
def cspProcess (current_price cash_available : Rat) (target_delta min_premium_pct : Rat)
    (exp : String) (dte : Int) (opt : ChainOption) : Option CSPCandidate :=
  match opt.details with
  | none => none
  | some details =>
    let strike := safe_float details.strike_price
    if strike ≥ current_price then none else
    let collateral := strike * 100
    if collateral > cash_available then none else
    let delta := |safe_float (opt.greeks.bind GreeksData.delta)|
    if delta = 0 then none else
    let last_price := chainLastPrice opt
    if last_price ≤ 0 then none else
    let num_contracts := (cash_available / collateral).floor
    if num_contracts < 1 then none else
    let premium := last_price * 100 * (num_contracts : Rat)
    let premium_pct := last_price / strike * 100
    let annualized_return := if dte > 0 then premium_pct / (dte : Rat) * 365 else 0
    let discount_to_current := (current_price - strike) / current_price * 100
    let breakeven := strike - last_price
    if premium_pct < min_premium_pct then none else
    some { expiration := exp, dte := dte, strike := strike, last := last_price,
           volume := chainVolume opt, open_interest := chainOpenInterest opt,
           iv := chainIv opt, delta := delta, contracts := num_contracts,
           collateral := collateral * (num_contracts : Rat),
           premium := premium, premium_pct := premium_pct,
           annualized_return := annualized_return,
           discount_to_current := discount_to_current,
           breakeven := breakeven, cost_basis_if_assigned := breakeven,
           delta_diff := |delta - target_delta| }

/-- The expiration scan shared by both rankers (tools.py:786-865 / 920-1008):
skip expirations outside `[min_dte, max_dte]`, skip failed chain fetches,
process each contract in order. -/
def scanCandidates {β : Type} (md : MarketData) (min_dte max_dte : Int)
    (process : String → Int → ChainOption → Option β) : List β :=
  md.expirations.flatMap (fun e =>
    if e.dte < min_dte ∨ e.dte > max_dte then []
    else
      match e.chain with
      | none => []
      | some opts => opts.filterMap (process e.exp e.dte))

/-- The ranking order used by `candidates.sort(key=lambda x: (x['delta_diff'],
-x['annualized_return']))`: ascending delta distance, ties by descending
annualized return. -/
def rankRel {α : Type} (dd ar : α → Rat) (a b : α) : Prop :=
  dd a < dd b ∨ (dd a = dd b ∧ ar b ≤ ar a)

instance {α : Type} (dd ar : α → Rat) : DecidableRel (rankRel dd ar) := fun a b => by
  unfold rankRel; infer_instance

instance {α : Type} (dd ar : α → Rat) : IsTotal α (rankRel dd ar) :=
  ⟨fun a b => by
    unfold rankRel
    rcases lt_trichotomy (dd a) (dd b) with h | h | h
    · exact Or.inl (Or.inl h)
    · rcases le_total (ar a) (ar b) with h' | h'
      · exact Or.inr (Or.inr ⟨h.symm, h'⟩)
      · exact Or.inl (Or.inr ⟨h, h'⟩)
    · exact Or.inr (Or.inl h)⟩

instance {α : Type} (dd ar : α → Rat) : IsTrans α (rankRel dd ar) :=
  ⟨fun a b c hab hbc => by
    unfold rankRel at *
    rcases hab with hab | ⟨hab, hab'⟩
    · rcases hbc with hbc | ⟨hbc, _⟩
      · exact Or.inl (hab.trans hbc)
      · exact Or.inl (hbc ▸ hab)
    · rcases hbc with hbc | ⟨hbc, hbc'⟩
      · exact Or.inl (hab ▸ hbc)
      · exact Or.inr ⟨hab.trans hbc, hbc'.trans hab'⟩⟩

/-- Embedding of Python's stable `list.sort` with the ranking key: `insertionSort`
computes the same (unique) stable result. -/
def pyRankSort {α : Type} (dd ar : α → Rat) (l : List α) : List α :=
  List.insertionSort (rankRel dd ar) l

/-- Sort by the ranking key and keep the top 10 (`candidates[:10]`). -/
def rankTop10 {α : Type} (dd ar : α → Rat) (l : List α) : List α :=
  (pyRankSort dd ar l).take 10

/-- The result dict of `find_covered_call` (tools.py:870-877). -/
structure CCResult where
  price : Rat
  shares : Int
  position_value : Rat
  target_delta : Rat
  candidates : List CCCandidate
deriving DecidableEq, Repr

/-- Embedding of `find_covered_call` (tools.py:745-877); `none` models the
error-dict returns (missing quote / no expirations). -/
def find_covered_call (md : MarketData) (shares : Int) (target_delta : Rat)
    (min_dte max_dte : Int) (min_premium_pct : Rat) : Option CCResult :=
  match md.quote with
  | none => none
  | some current_price =>
    if md.expirations = [] then none
    else
      some { price := current_price, shares := shares,
             position_value := current_price * (shares : Rat),
             target_delta := target_delta,
             candidates := rankTop10 CCCandidate.delta_diff CCCandidate.annualized_return
               (scanCandidates md min_dte max_dte
                 (ccProcess current_price shares target_delta min_premium_pct)) }

/-- The result dict of `find_cash_secured_put` (tools.py:1013-1019). -/
structure CSPResult where
  price : Rat
  cash_available : Rat
  target_delta : Rat
  candidates : List CSPCandidate
deriving DecidableEq, Repr

/-- Embedding of `find_cash_secured_put` (tools.py:880-1019). -/
def find_cash_secured_put (md : MarketData) (cash_available : Rat) (target_delta : Rat)
    (min_dte max_dte : Int) (min_premium_pct : Rat) : Option CSPResult :=
  match md.quote with
  | none => none
  | some current_price =>
    if md.expirations = [] then none
    else
      some { price := current_price, cash_available := cash_available,
             target_delta := target_delta,
             candidates := rankTop10 CSPCandidate.delta_diff CSPCandidate.annualized_return
               (scanCandidates md min_dte max_dte
                 (cspProcess current_price cash_available target_delta min_premium_pct)) }

/-- `true` exactly on the cash-shortfall alert. -/
def isCashShortfallB : Alert → Bool
  | .cashShortfall .. => true
  | _ => false

/-- `true` exactly on the three near-expiration alert shapes. -/
def isNearExpB : Alert → Bool
  | .nearExpLetExpire .. => true
  | .nearExpRollClose .. => true
  | .nearExpPlain .. => true
  | _ => false

/-- Whether an option row's expiration is within 7 days of `today`
(`dte ≤ 7` with `dte = exp_day - today`), `false` when the symbol or the date
does not parse. -/
def rowDte7 (dateVal : String → Option Int) (today : Int) (r : OptionRow) : Bool :=
  match parse_option_symbol r.symbol with
  | some o =>
    match dateVal o.exp with
    | some d => decide (d - today ≤ 7)
    | none => false
  | none => false

/-- Concrete date table for the witnesses: expiration strings mapped to day
numbers (today = day 0). -/
def witDateVal : String → Option Int :=
  fun s => if s = "01/07/2026" then some 7 else if s = "01/08/2026" then some 8 else none

/-- One held equity for the witnesses. -/
def witEq : EquityRow :=
  { symbol := "NVDA", qty := 100, price := some "$180.00",
    mktVal := some "$18,000.00", gainPct := some "5.00%" }

/-- A short put expiring in exactly 7 days. -/
def witOpt7 : OptionRow :=
  { symbol := "NVDA 01/07/2026 200.00 P", qty := -1, price := some "$2.00",
    mktVal := some "-$200.00", delta := some "-0.30", gainPct := some "10.00%" }

/-- A long call expiring in 8 days. -/
def witOpt8 : OptionRow :=
  { symbol := "NVDA 01/08/2026 150.00 C", qty := 1, price := some "$40.00",
    mktVal := some "$4,000.00", delta := some "0.90", gainPct := some "1.00%" }

/-- The analysis of the witness snapshot with 5000 cash. -/
def witRes : AnalysisResult :=
  (analyze_portfolio witDateVal 0 [witEq] [witOpt7, witOpt8] 5000).get (by decide)

/-- The analysis of the witness snapshot with cash exactly equal to the
short-put exposure (20000). -/
def witResEq : AnalysisResult :=
  (analyze_portfolio witDateVal 0 [witEq] [witOpt7, witOpt8] 20000).get (by decide)

/-- Market snapshot for the cash-secured-put witness: one 30-DTE expiration
with a single 90-strike put under a 100 spot. -/
def cspWitMd : MarketData :=
  { quote := some 100,
    expirations := [
      { exp := "2026-02-20", dte := 30,
        chain := some [
          { details := some { strike_price := some 90 },
            greeks := some { delta := some (-0.25) },
            last_trade := some 1.5, day := none,
            implied_volatility := some 0.4, open_interest := some 50 } ] } ] }

/-- The ranking result on `cspWitMd` with 25000 of cash. -/
def cspWitR : CSPResult :=
  (find_cash_secured_put cspWitMd 25000 0.2 20 45 0.5).get (by decide)

/-- Its single candidate. -/
def cspWitC : CSPCandidate :=
  cspWitR.candidates.head (by decide)

/-- Market snapshot for the covered-call witnesses: spot 100, one 30-DTE
expiration whose chain has a single 110-strike call. -/
def ccWitMd : MarketData :=
  { quote := some 100,
    expirations := [
      { exp := "2026-02-20", dte := 30,
        chain := some [
          { details := some { strike_price := some 110 },
            greeks := some { delta := some 0.25 },
            last_trade := some 2, day := none,
            implied_volatility := some 0.4, open_interest := some 50 } ] } ] }

/-- The ranking result on `ccWitMd` with 50 shares. -/
def ccWit50R : CCResult :=
  (find_covered_call ccWitMd 50 0.2 20 45 0.5).get (by decide)

/-- Its single candidate. -/
def ccWit50C : CCCandidate :=
  ccWit50R.candidates.head (by decide)

/-- Market snapshot for the ranking witness: three calls, the first two an
exact ranking tie (same delta, price and expiration, different strikes). -/
def ccTieMd : MarketData :=
  { quote := some 100,
    expirations := [
      { exp := "2026-02-20", dte := 30,
        chain := some [
          { details := some { strike_price := some 110 },
            greeks := some { delta := some 0.25 },
            last_trade := some 2, day := none,
            implied_volatility := some 0.4, open_interest := some 50 },
          { details := some { strike_price := some 105 },
            greeks := some { delta := some 0.25 },
            last_trade := some 2, day := none,
            implied_volatility := some 0.4, open_interest := some 50 },
          { details := some { strike_price := some 120 },
            greeks := some { delta := some 0.15 },
            last_trade := some 1, day := none,
            implied_volatility := some 0.4, open_interest := some 50 } ] } ] }

/-- The ranking result on `ccTieMd` with 150 shares. -/
def ccTieR : CCResult :=
  (find_covered_call ccTieMd 150 0.2 20 45 0.5).get (by decide)

/-- The scanned (pre-sort) candidate list on `ccTieMd`. -/
def ccTieScan : List CCCandidate :=
  scanCandidates ccTieMd 20 45 (ccProcess ccTieR.price 150 0.2 0.5)

/-- The two exact-tie candidates, in scan order. -/
def ccTieA : CCCandidate :=
  ccTieScan.head (by decide)

/-- Second of the two exact-tie candidates. -/
def ccTieB : CCCandidate :=
  ccTieScan.get ⟨1, by decide⟩

theorem itmAlert_countP (equities : List EquityRow) (r : OptionRow) (l : List Alert)
    (p : Alert → Bool) (hp : ∀ u t s pr, p (Alert.itm u t s pr) = false)
    (h : itmAlert equities r = some l) : l.countP p = 0 := by
  unfold itmAlert at h
  split at h
  · cases h; rfl
  · simp only [bind, Option.bind_eq_some, Option.pure_def, Option.some.injEq] at h
    obtain ⟨o, ho, h⟩ := h
    split at h
    · cases h; rfl
    · simp only [Option.bind_eq_some, Option.some.injEq] at h
      obtain ⟨price, hpr, h⟩ := h
      split at h <;> cases h <;> simp [List.countP, List.countP.go, hp]

theorem highDeltaAlert_countP (r : OptionRow) (l : List Alert)
    (p : Alert → Bool) (hp : ∀ u d t s, p (Alert.highDelta u d t s) = false)
    (h : highDeltaAlert r = some l) : l.countP p = 0 := by
  unfold highDeltaAlert at h
  split at h
  · cases h; rfl
  · simp only [bind, Option.bind_eq_some, Option.pure_def, Option.some.injEq] at h
    obtain ⟨o, ho, d, hd, h⟩ := h
    subst h
    split <;> simp [List.countP, List.countP.go, hp]

theorem lossAlert_countP (e : EquityRow) (l : List Alert)
    (p : Alert → Bool) (hp : ∀ s g, p (Alert.unrealizedLoss s g) = false)
    (h : lossAlert e = some l) : l.countP p = 0 := by
  unfold lossAlert at h
  simp only [bind, Option.bind_eq_some, Option.pure_def, Option.some.injEq] at h
  obtain ⟨g, hg, h⟩ := h
  subst h
  split <;> simp [List.countP, List.countP.go, hp]

theorem nakedAlert_countP (equities : List EquityRow) (r : OptionRow) (l : List Alert)
    (p : Alert → Bool) (hp : ∀ u t s, p (Alert.nakedShort u t s) = false)
    (h : nakedAlert equities r = some l) : l.countP p = 0 := by
  unfold nakedAlert at h
  split at h
  · cases h; rfl
  · simp only [bind, Option.bind_eq_some, Option.pure_def, Option.some.injEq] at h
    obtain ⟨o, ho, h⟩ := h
    subst h
    split <;> simp [List.countP, List.countP.go, hp]

theorem nearExpAlert_countP (dateVal : String → Option Int) (today : Int)
    (equities : List EquityRow) (r : OptionRow) (l : List Alert)
    (p : Alert → Bool) (hval : Bool)
    (hp1 : ∀ u t s d g, p (Alert.nearExpLetExpire u t s d g) = hval)
    (hp2 : ∀ u t s d, p (Alert.nearExpRollClose u t s d) = hval)
    (hp3 : ∀ u t s d, p (Alert.nearExpPlain u t s d) = hval)
    (h : nearExpAlert dateVal today equities r = some l) :
    l.countP p = if rowDte7 dateVal today r ∧ hval then 1 else 0 := by
  unfold nearExpAlert at h
  simp only [bind, Option.bind_eq_some, Option.pure_def, Option.some.injEq] at h
  obtain ⟨o, ho, d, hd, h⟩ := h
  have hrow : rowDte7 dateVal today r = decide (d - today ≤ 7) := by
    simp [rowDte7, ho, hd]
  rw [hrow]
  split at h
  · rename_i hgt
    cases h
    have hd7 : decide (d - today ≤ 7) = false := by
      simp only [decide_eq_false_iff_not]; omega
    rw [hd7]
    simp
  · rename_i hle
    have h7 : decide (d - today ≤ 7) = true := by
      simp only [decide_eq_true_eq]; omega
    rw [h7]
    split at h
    · rw [Option.some_bind] at h
      have h' : some [Alert.nearExpPlain o.underlying o.opt_type o.strike (d - today)] =
          some l := h
      cases h'
      cases hval <;> simp [List.countP, List.countP.go, hp3]
    · rw [Option.bind_eq_some] at h
      obtain ⟨a, ha, h⟩ := h
      rw [Option.map_eq_some'] at ha
      obtain ⟨pr, hpr, rfl⟩ := ha
      split at h
      · rename_i p2 heq2
        cases heq2
        split at h
        · split at h
          · simp only [Option.bind_eq_some, Option.some.injEq] at h
            obtain ⟨g, hg, h⟩ := h
            subst h
            cases hval <;> simp [List.countP, List.countP.go, hp1]
          · cases h
            cases hval <;> simp [List.countP, List.countP.go, hp2]
        · cases h
          cases hval <;> simp [List.countP, List.countP.go, hp3]
      · rename_i heq2
        cases heq2

theorem mapM_flatten_countP_zero {γ : Type} (f : γ → Option (List Alert)) (p : Alert → Bool)
    (hf : ∀ x l, f x = some l → l.countP p = 0) :
    ∀ (xs : List γ) (ls : List (List Alert)), xs.mapM f = some ls →
      ls.flatten.countP p = 0 := by
  intro xs
  induction xs with
  | nil =>
    intro ls h
    simp only [List.mapM_nil, Option.pure_def, Option.some.injEq] at h
    subst h; rfl
  | cons x xs ih =>
    intro ls h
    rw [List.mapM_cons] at h
    simp only [bind, Option.bind_eq_some, Option.pure_def, Option.some.injEq] at h
    obtain ⟨l, hl, ls', hls', hcons⟩ := h
    subst hcons
    simp [List.countP_append, hf x l hl, ih ls' hls']

theorem mapM_flatten_countP_eq {γ : Type} (f : γ → Option (List Alert)) (p : Alert → Bool)
    (g : γ → Bool)
    (hf : ∀ x l, f x = some l → l.countP p = if g x then 1 else 0) :
    ∀ (xs : List γ) (ls : List (List Alert)), xs.mapM f = some ls →
      ls.flatten.countP p = xs.countP g := by
  intro xs
  induction xs with
  | nil =>
    intro ls h
    simp only [List.mapM_nil, Option.pure_def, Option.some.injEq] at h
    subst h; rfl
  | cons x xs ih =>
    intro ls h
    rw [List.mapM_cons] at h
    simp only [bind, Option.bind_eq_some, Option.pure_def, Option.some.injEq] at h
    obtain ⟨l, hl, ls', hls', hcons⟩ := h
    subst hcons
    simp [List.countP_append, List.countP_cons, hf x l hl, ih ls' hls']
    omega

/-- C3: the cash-shortfall alert is emitted iff the short-put exposure strictly
exceeds cash; at most one per call; none at exact equality. -/
theorem analyze_portfolio_shortfall_alert
    (dateVal : String → Option Int) (today : Int)
    (equities : List EquityRow) (options : List OptionRow) (cash e : Rat)
    (res : AnalysisResult)
    (h : analyze_portfolio dateVal today equities options cash = some res)
    (he : shortPutExposure options = some e) :
    res.alerts.countP isCashShortfallB = if e > cash then 1 else 0 := by
  simp only [analyze_portfolio, bind, Option.bind_eq_some, Option.pure_def,
    Option.some.injEq] at h
  obtain ⟨itmAs, h1, exposure, h2, hdAs, h3, neAs, h4, lossAs, h5, nkAs, h6,
    eqVals, h7, optVals, h8, hE, h9, hO, h10, hres⟩ := h
  rw [he] at h2
  injection h2 with h2
  subst h2
  subst hres
  have c1 : itmAs.flatten.countP isCashShortfallB = 0 :=
    mapM_flatten_countP_zero _ _
      (fun x l hx => itmAlert_countP equities x l _ (fun _ _ _ _ => rfl) hx) options itmAs h1
  have c3 : hdAs.flatten.countP isCashShortfallB = 0 :=
    mapM_flatten_countP_zero _ _
      (fun x l hx => highDeltaAlert_countP x l _ (fun _ _ _ _ => rfl) hx) options hdAs h3
  have c4 : neAs.flatten.countP isCashShortfallB = 0 :=
    mapM_flatten_countP_zero _ _
      (fun x l hx => by
        rw [nearExpAlert_countP dateVal today equities x l _ false
          (fun _ _ _ _ _ => rfl) (fun _ _ _ _ => rfl) (fun _ _ _ _ => rfl) hx]
        simp) options neAs h4
  have c5 : lossAs.flatten.countP isCashShortfallB = 0 :=
    mapM_flatten_countP_zero _ _
      (fun x l hx => lossAlert_countP x l _ (fun _ _ => rfl) hx) equities lossAs h5
  have c6 : nkAs.flatten.countP isCashShortfallB = 0 :=
    mapM_flatten_countP_zero _ _
      (fun x l hx => nakedAlert_countP equities x l _ (fun _ _ _ => rfl) hx) options nkAs h6
  set sfl := if e > cash then [Alert.cashShortfall e cash (e - cash)] else [] with hsfl
  have csf : sfl.countP isCashShortfallB = if e > cash then 1 else 0 := by
    rw [hsfl]; split <;> rfl
  by_cases hem :
      itmAs.flatten ++ sfl ++ hdAs.flatten ++ neAs.flatten ++ lossAs.flatten ++
        nkAs.flatten = ([] : List Alert)
  · simp only [hem, if_pos rfl]
    have hsf0 : sfl = [] := by
      simp only [List.append_eq_nil] at hem
      exact hem.1.1.1.1.2
    have : ¬(e > cash) := by
      intro hgt
      rw [hsfl] at hsf0
      rw [if_pos hgt] at hsf0
      cases hsf0
    rw [if_neg this]
    rfl
  · simp only [if_neg hem]
    simp [List.countP_append, c1, c3, c4, c5, c6, csf]

/-- C4: each option holding yields a near-expiration alert exactly when its
expiration is within 7 days (day granularity) of the caller's today. -/
theorem analyze_portfolio_near_expiration
    (dateVal : String → Option Int) (today : Int)
    (equities : List EquityRow) (options : List OptionRow) (cash : Rat)
    (res : AnalysisResult)
    (h : analyze_portfolio dateVal today equities options cash = some res) :
    res.alerts.countP isNearExpB = options.countP (rowDte7 dateVal today) := by
  simp only [analyze_portfolio, bind, Option.bind_eq_some, Option.pure_def,
    Option.some.injEq] at h
  obtain ⟨itmAs, h1, exposure, h2, hdAs, h3, neAs, h4, lossAs, h5, nkAs, h6,
    eqVals, h7, optVals, h8, hE, h9, hO, h10, hres⟩ := h
  subst hres
  have c1 : itmAs.flatten.countP isNearExpB = 0 :=
    mapM_flatten_countP_zero _ _
      (fun x l hx => itmAlert_countP equities x l _ (fun _ _ _ _ => rfl) hx) options itmAs h1
  have c3 : hdAs.flatten.countP isNearExpB = 0 :=
    mapM_flatten_countP_zero _ _
      (fun x l hx => highDeltaAlert_countP x l _ (fun _ _ _ _ => rfl) hx) options hdAs h3
  have c4 : neAs.flatten.countP isNearExpB = options.countP (rowDte7 dateVal today) :=
    mapM_flatten_countP_eq _ _ _
      (fun x l hx => by
        rw [nearExpAlert_countP dateVal today equities x l _ true
          (fun _ _ _ _ _ => rfl) (fun _ _ _ _ => rfl) (fun _ _ _ _ => rfl) hx]
        simp) options neAs h4
  have c5 : lossAs.flatten.countP isNearExpB = 0 :=
    mapM_flatten_countP_zero _ _
      (fun x l hx => lossAlert_countP x l _ (fun _ _ => rfl) hx) equities lossAs h5
  have c6 : nkAs.flatten.countP isNearExpB = 0 :=
    mapM_flatten_countP_zero _ _
      (fun x l hx => nakedAlert_countP equities x l _ (fun _ _ _ => rfl) hx) options nkAs h6
  set sfl := if exposure > cash then [Alert.cashShortfall exposure cash (exposure - cash)]
    else [] with hsfl
  have csf : sfl.countP isNearExpB = 0 := by
    rw [hsfl]; split <;> rfl
  by_cases hem :
      itmAs.flatten ++ sfl ++ hdAs.flatten ++ neAs.flatten ++ lossAs.flatten ++
        nkAs.flatten = ([] : List Alert)
  · simp only [hem, if_pos rfl]
    have hne0 : neAs.flatten = [] := by
      simp only [List.append_eq_nil] at hem
      exact hem.1.1.2
    rw [← c4, hne0]
    rfl
  · simp only [if_neg hem]
    simp [List.countP_append, c1, c3, c4, c5, c6, csf]

/-- C5: the summary identity of `analyze_portfolio`. -/
theorem analyze_portfolio_total_value
    (dateVal : String → Option Int) (today : Int)
    (equities : List EquityRow) (options : List OptionRow) (cash : Rat)
    (res : AnalysisResult)
    (h : analyze_portfolio dateVal today equities options cash = some res) :
    res.summary.total_value =
        res.summary.cash + res.summary.equity_value + res.summary.option_value ∧
      res.summary.cash = cash ∧
      (∀ evs, equities.mapM (fun e => clean_currency e.mktVal) = some evs →
        res.summary.equity_value = evs.sum) ∧
      (∀ ovs, options.mapM (fun r => clean_currency r.mktVal) = some ovs →
        res.summary.option_value = ovs.sum) := by
  simp only [analyze_portfolio, bind, Option.bind_eq_some, Option.pure_def,
    Option.some.injEq] at h
  obtain ⟨itmAs, h1, exposure, h2, hdAs, h3, neAs, h4, lossAs, h5, nkAs, h6,
    eqVals, h7, optVals, h8, hE, h9, hO, h10, hres⟩ := h
  subst hres
  refine ⟨rfl, rfl, ?_, ?_⟩
  · intro evs hevs
    rw [h7] at hevs
    injection hevs with hevs
    subst hevs
    rfl
  · intro ovs hovs
    rw [h8] at hovs
    injection hovs with hovs
    subst hovs
    rfl

theorem analyze_portfolio_shortfall_alert_witness :
    witRes.alerts.countP isCashShortfallB = 1 ∧
      witResEq.alerts.countP isCashShortfallB = 0 := by
  constructor
  · have h := analyze_portfolio_shortfall_alert witDateVal 0 [witEq] [witOpt7, witOpt8]
      5000 20000 witRes (Option.some_get _).symm (by decide)
    rw [h]; decide
  · have h := analyze_portfolio_shortfall_alert witDateVal 0 [witEq] [witOpt7, witOpt8]
      20000 20000 witResEq (Option.some_get _).symm (by decide)
    rw [h]; decide

theorem analyze_portfolio_near_expiration_witness :
    witRes.alerts.countP isNearExpB = 1 ∧
      rowDte7 witDateVal 0 witOpt7 = true ∧ rowDte7 witDateVal 0 witOpt8 = false := by
  refine ⟨?_, by decide, by decide⟩
  have h := analyze_portfolio_near_expiration witDateVal 0 [witEq] [witOpt7, witOpt8]
    5000 witRes (Option.some_get _).symm
  rw [h]; decide

theorem analyze_portfolio_total_value_witness :
    witRes.summary.total_value =
        witRes.summary.cash + witRes.summary.equity_value + witRes.summary.option_value ∧
      witRes.summary.cash = 5000 := by
  have h := analyze_portfolio_total_value witDateVal 0 [witEq] [witOpt7, witOpt8]
    5000 witRes (Option.some_get _).symm
  exact ⟨h.1, h.2.1⟩

/-- C6: 4-token symbols parse into their components with a float strike; fewer
than 4 whitespace tokens always fail. -/
theorem parse_option_symbol_spec :
    parse_option_symbol "NVDA 01/23/2026 200.00 C" =
        some { underlying := "NVDA", exp := "01/23/2026", strike := 200, opt_type := "C" } ∧
      ∀ s : String, (pySplit s).length < 4 → parse_option_symbol s = none := by
  refine ⟨by decide, ?_⟩
  intro s h
  rcases hp : pySplit s with _ | ⟨p0, _ | ⟨p1, _ | ⟨p2, _ | ⟨p3, rest⟩⟩⟩⟩
  · rw [parse_option_symbol, hp]; rfl
  · rw [parse_option_symbol, hp]; rfl
  · rw [parse_option_symbol, hp]; rfl
  · rw [parse_option_symbol, hp]; rfl
  · exfalso
    rw [hp] at h
    simp at h
    omega

theorem parse_option_symbol_spec_witness :
    (pySplit "NVDA 01/23/2026").length < 4 ∧
      parse_option_symbol "NVDA 01/23/2026" = none :=
  ⟨by decide, parse_option_symbol_spec.2 "NVDA 01/23/2026" (by decide)⟩

/-- C10: inputs with more than 4 whitespace tokens are accepted, the result is
built from the first four tokens and the extras are ignored. -/
theorem parse_option_symbol_extra_tokens :
    ∀ s : String, 4 < (pySplit s).length →
      parse_option_symbol s = partsToSymbol ((pySplit s).take 4) ∧
      ((pyFloat? ((pySplit s).getD 2 "")).isSome → (parse_option_symbol s).isSome) := by
  intro s h
  rcases hp : pySplit s with _ | ⟨p0, _ | ⟨p1, _ | ⟨p2, _ | ⟨p3, rest⟩⟩⟩⟩ <;>
    rw [hp] at h <;> simp at h
  rw [parse_option_symbol, hp]
  constructor
  · rfl
  · intro hf
    have hg : ((p0 :: p1 :: p2 :: p3 :: rest).getD 2 "") = p2 := rfl
    rw [hg] at hf
    cases hv : pyFloat? p2 with
    | none => rw [hv] at hf; simp at hf
    | some k =>
      simp only [partsToSymbol]
      rw [hv]
      rfl

theorem parse_option_symbol_extra_tokens_witness :
    parse_option_symbol "NVDA 01/23/2026 200.00 C EXTRA" =
        partsToSymbol ["NVDA", "01/23/2026", "200.00", "C"] ∧
      (parse_option_symbol "NVDA 01/23/2026 200.00 C EXTRA").isSome := by
  have h := parse_option_symbol_extra_tokens "NVDA 01/23/2026 200.00 C EXTRA" (by decide)
  exact ⟨by rw [h.1]; decide, h.2 (by decide)⟩

/-- C7: `clean_currency` on Schwab stray-quoted currency text and on the
`--` / `N/A` / empty / blank placeholders. -/
theorem clean_currency_spec :
    clean_currency (some "=\"\"$1,234.56\"\"") = some (123456 / 100 : Rat) ∧
      clean_currency (some "--") = some 0 ∧
      clean_currency (some "N/A") = some 0 ∧
      clean_currency (some "") = some 0 ∧
      clean_currency (some "   ") = some 0 ∧
      clean_currency none = some 0 := by
  decide

/-- C8 counterexample: `clean_pct` does not apply the same escaping strip as
`clean_currency`: on the singly-quoted Schwab form `="..."` the currency parser
succeeds but the percent parser raises `ValueError`. -/
theorem clean_pct_strip_differs :
    clean_currency (some "=\"12.5\"") = some (25 / 2 : Rat) ∧
      clean_pct (some "=\"12.5%\"") = none ∧
      clean_pct (some "=\"12.5\"") = none := by
  decide

/-- C8 amended: `clean_pct` strips only the doubled-quote artifacts `=""` and
`""` (not the single `="` prefix or bare quotes), strips `%`, maps `--`/`N/A`
to 0, divides the parsed value by 100, and returns 0 for empty / `N/A` / `--` /
missing input. -/
theorem clean_pct_spec :
    (∀ v : String,
      clean_pct (some v) =
        (let s := pyReplace (pyReplace (pyReplace (pyReplace (pyReplace v
          "=\"\"" "") "\"\"" "") "%" "") "--" "0") "N/A" "0"
         if s = "" then some 0 else (pyFloat? s).map (fun x => x / 100))) ∧
      clean_pct (some "=\"\"12.5%\"\"") = some (1 / 8 : Rat) ∧
      clean_pct (some "") = some 0 ∧
      clean_pct (some "N/A") = some 0 ∧
      clean_pct (some "--") = some 0 ∧
      clean_pct none = some 0 := by
  refine ⟨fun v => rfl, by decide, by decide, by decide, by decide, by decide⟩

theorem mem_scanCandidates {β : Type} {md : MarketData} {mnd mxd : Int}
    {process : String → Int → ChainOption → Option β} {c : β}
    (h : c ∈ scanCandidates md mnd mxd process) :
    ∃ e ∈ md.expirations, ∃ opts, e.chain = some opts ∧
      ∃ opt ∈ opts, process e.exp e.dte opt = some c := by
  unfold scanCandidates at h
  rw [List.mem_flatMap] at h
  obtain ⟨e, he, hc⟩ := h
  refine ⟨e, he, ?_⟩
  split at hc
  · simp at hc
  · split at hc
    · simp at hc
    · rename_i opts heq
      rw [List.mem_filterMap] at hc
      obtain ⟨opt, ho, hp⟩ := hc
      exact ⟨opts, heq, opt, ho, hp⟩

theorem cspProcess_inv {current_price cash_available target_delta min_premium_pct : Rat}
    {exp : String} {dte : Int} {opt : ChainOption} {c : CSPCandidate}
    (h : cspProcess current_price cash_available target_delta min_premium_pct exp dte opt =
      some c) :
    c.strike < current_price ∧ c.strike * 100 ≤ cash_available ∧
      1 ≤ c.contracts ∧ c.contracts = (cash_available / (c.strike * 100)).floor ∧
      c.collateral = c.strike * 100 * (c.contracts : Rat) := by
  unfold cspProcess at h
  split at h
  · cases h
  · simp only [] at h
    split_ifs at h with h1 h2 h3 h4 h5 h6 <;>
      first
        | exact Option.noConfusion h
        | (cases h
           exact ⟨by simpa using h1, by simpa using h2, by simpa using not_lt.mp h5, rfl, rfl⟩)

theorem collateral_mul_floor_le {col cash : Rat} (hle : col ≤ cash)
    (hn : 1 ≤ (cash / col).floor) : col * (((cash / col).floor : Int) : Rat) ≤ cash := by
  have hff : ∀ q : ℚ, q.floor = ⌊q⌋ := fun _ => rfl
  rcases lt_trichotomy col 0 with hneg | hzero | hpos
  · have h1 : (1 : ℚ) ≤ cash / col := by
      rw [hff] at hn
      exact_mod_cast Int.le_floor.mp hn
    have hcc : cash ≤ col := by
      have := (le_div_iff_of_neg hneg).mp h1
      simpa using this
    have heq : col = cash := le_antisymm hle hcc
    have hone : cash / col = 1 := by
      rw [← heq]
      exact div_self (ne_of_lt hneg)
    rw [hone]
    have : ((1 : ℚ).floor : ℚ) = 1 := rfl
    rw [this, mul_one, heq]
  · rw [hzero] at hn
    rw [div_zero] at hn
    simp [Rat.floor] at hn
  · have h2 : (((cash / col).floor : Int) : ℚ) ≤ cash / col := by
      rw [hff]
      exact Int.floor_le _
    calc col * (((cash / col).floor : Int) : ℚ) ≤ col * (cash / col) :=
          mul_le_mul_of_nonneg_left h2 (le_of_lt hpos)
      _ = cash := by field_simp

/-- C2: every returned cash-secured-put candidate is affordable: its strike
collateral fits in cash, its contract count is the floor of cash over the
per-contract collateral and is at least 1, and the total collateral never
exceeds the supplied cash. -/
theorem csp_collateral_invariant
    (md : MarketData) (cash_available target_delta : Rat) (min_dte max_dte : Int)
    (min_premium_pct : Rat) (r : CSPResult)
    (h : find_cash_secured_put md cash_available target_delta min_dte max_dte
      min_premium_pct = some r) :
    ∀ c ∈ r.candidates,
      c.strike * 100 ≤ cash_available ∧ 1 ≤ c.contracts ∧
        c.contracts = (cash_available / (c.strike * 100)).floor ∧
        c.collateral = c.strike * 100 * (c.contracts : Rat) ∧
        c.collateral ≤ cash_available := by
  intro c hc
  unfold find_cash_secured_put at h
  split at h
  next => exact Option.noConfusion h
  next current_price hq =>
    split at h
    · exact Option.noConfusion h
    · injection h with h
      subst h
      replace hc :
          c ∈ pyRankSort CSPCandidate.delta_diff CSPCandidate.annualized_return
            (scanCandidates md min_dte max_dte
              (cspProcess current_price cash_available target_delta min_premium_pct)) :=
        List.take_subset 10 _ hc
      replace hc := (List.mem_insertionSort _).mp hc
      obtain ⟨e, he, opts, hch, opt, hop, hpr⟩ := mem_scanCandidates hc
      obtain ⟨hlt, hle, hn, hcontr, hcoll⟩ := cspProcess_inv hpr
      refine ⟨hle, hn, hcontr, hcoll, ?_⟩
      rw [hcoll, hcontr]
      exact collateral_mul_floor_le hle (hcontr ▸ hn)

theorem csp_collateral_invariant_witness :
    cspWitC.strike * 100 ≤ 25000 ∧ 1 ≤ cspWitC.contracts ∧
      cspWitC.contracts = ((25000 : Rat) / (cspWitC.strike * 100)).floor ∧
      cspWitC.collateral = cspWitC.strike * 100 * (cspWitC.contracts : Rat) ∧
      cspWitC.collateral ≤ 25000 :=
  csp_collateral_invariant cspWitMd 25000 0.2 20 45 0.5 cspWitR (Option.some_get _).symm
    cspWitC (List.head_mem _)

theorem ccProcess_inv {current_price : Rat} {shares : Int} {target_delta min_premium_pct : Rat}
    {exp : String} {dte : Int} {opt : ChainOption} {c : CCCandidate}
    (h : ccProcess current_price shares target_delta min_premium_pct exp dte opt = some c) :
    c.contracts = shares.fdiv 100 ∧
      c.premium = c.last * 100 * (c.contracts : Rat) := by
  unfold ccProcess at h
  split at h
  · cases h
  · simp only [] at h
    split_ifs at h with h1 h2 h3 h4 <;>
      first
        | exact Option.noConfusion h
        | (cases h; exact ⟨rfl, rfl⟩)

/-- C9 (amended): returned covered-call candidates always carry
`contracts = shares // 100` (never filtered for being below 1), so for
`0 ≤ shares < 100` they come back with zero contracts and zero premium. -/
theorem cc_small_shares_contracts
    (md : MarketData) (shares : Int) (target_delta : Rat) (min_dte max_dte : Int)
    (min_premium_pct : Rat) (r : CCResult)
    (h : find_covered_call md shares target_delta min_dte max_dte min_premium_pct = some r) :
    ∀ c ∈ r.candidates,
      c.contracts = shares.fdiv 100 ∧
        c.premium = c.last * 100 * (c.contracts : Rat) ∧
        (0 ≤ shares → shares < 100 → c.contracts = 0 ∧ c.premium = 0) := by
  intro c hc
  unfold find_covered_call at h
  split at h
  next => exact Option.noConfusion h
  next current_price hq =>
    split at h
    · exact Option.noConfusion h
    · injection h with h
      subst h
      replace hc :
          c ∈ pyRankSort CCCandidate.delta_diff CCCandidate.annualized_return
            (scanCandidates md min_dte max_dte
              (ccProcess current_price shares target_delta min_premium_pct)) :=
        List.take_subset 10 _ hc
      replace hc := (List.mem_insertionSort _).mp hc
      obtain ⟨e, he, opts, hch, opt, hop, hpr⟩ := mem_scanCandidates hc
      obtain ⟨hcon, hprem⟩ := ccProcess_inv hpr
      refine ⟨hcon, hprem, fun hs0 hs100 => ?_⟩
      have hz : shares.fdiv 100 = 0 := by
        rw [Int.fdiv_eq_ediv _ (by norm_num)]
        exact Int.ediv_eq_zero_of_lt hs0 hs100
      have hc0 : c.contracts = 0 := by rw [hcon, hz]
      refine ⟨hc0, ?_⟩
      rw [hprem, hc0]
      simp

/-- C9 counterexample: with `shares = -50` (which satisfies `shares < 100`) the
single returned candidate has `contracts = -1` and `premium = -200`, not
`contracts = 0` and `premium = 0.0` as claimed. -/
theorem cc_negative_shares_counterexample :
    (find_covered_call ccWitMd (-50) 0.2 20 45 0.5).map
        (fun r => r.candidates.map (fun c => (c.contracts, c.premium))) =
      some [((-1 : Int), (-200 : Rat))] := by
  decide

theorem cc_small_shares_contracts_witness :
    ccWit50C.contracts = 0 ∧ ccWit50C.premium = 0 :=
  (cc_small_shares_contracts ccWitMd 50 0.2 20 45 0.5 ccWit50R (Option.some_get _).symm
    ccWit50C (List.head_mem _)).2.2 (by decide) (by decide)

/-- C1: both ranking calls return the first 10 entries of the stable sort of
the scanned candidates: the returned list is sorted ascending by delta distance
with ties by descending annualized return, has at most 10 entries, and exact
ties keep their scan order in the sorted list. -/
theorem ranking_sorted_top10_stable :
    (∀ (md : MarketData) (shares : Int) (target_delta : Rat) (min_dte max_dte : Int)
        (min_premium_pct : Rat) (r : CCResult),
      find_covered_call md shares target_delta min_dte max_dte min_premium_pct = some r →
        r.candidates.Sorted
            (rankRel CCCandidate.delta_diff CCCandidate.annualized_return) ∧
          r.candidates.length ≤ 10 ∧
          r.candidates =
            (pyRankSort CCCandidate.delta_diff CCCandidate.annualized_return
              (scanCandidates md min_dte max_dte
                (ccProcess r.price shares target_delta min_premium_pct))).take 10 ∧
          (∀ a b : CCCandidate, a.delta_diff = b.delta_diff →
            a.annualized_return = b.annualized_return →
            List.Sublist [a, b]
              (scanCandidates md min_dte max_dte
                (ccProcess r.price shares target_delta min_premium_pct)) →
            List.Sublist [a, b]
              (pyRankSort CCCandidate.delta_diff CCCandidate.annualized_return
                (scanCandidates md min_dte max_dte
                  (ccProcess r.price shares target_delta min_premium_pct))))) ∧
    (∀ (md : MarketData) (cash_available target_delta : Rat) (min_dte max_dte : Int)
        (min_premium_pct : Rat) (r : CSPResult),
      find_cash_secured_put md cash_available target_delta min_dte max_dte min_premium_pct
          = some r →
        r.candidates.Sorted
            (rankRel CSPCandidate.delta_diff CSPCandidate.annualized_return) ∧
          r.candidates.length ≤ 10 ∧
          r.candidates =
            (pyRankSort CSPCandidate.delta_diff CSPCandidate.annualized_return
              (scanCandidates md min_dte max_dte
                (cspProcess r.price cash_available target_delta min_premium_pct))).take 10 ∧
          (∀ a b : CSPCandidate, a.delta_diff = b.delta_diff →
            a.annualized_return = b.annualized_return →
            List.Sublist [a, b]
              (scanCandidates md min_dte max_dte
                (cspProcess r.price cash_available target_delta min_premium_pct)) →
            List.Sublist [a, b]
              (pyRankSort CSPCandidate.delta_diff CSPCandidate.annualized_return
                (scanCandidates md min_dte max_dte
                  (cspProcess r.price cash_available target_delta min_premium_pct))))) := by
  constructor
  · intro md shares target_delta min_dte max_dte min_premium_pct r h
    unfold find_covered_call at h
    split at h
    next => exact Option.noConfusion h
    next current_price hq =>
      split at h
      · exact Option.noConfusion h
      · injection h with h
        subst h
        refine ⟨?_, ?_, rfl, ?_⟩
        · exact (List.sorted_insertionSort _ _).sublist (List.take_sublist 10 _)
        · simp [rankTop10, List.length_take]
        · intro a b h1 h2 hs
          exact List.pair_sublist_insertionSort (Or.inr ⟨h1, le_of_eq h2.symm⟩) hs
  · intro md cash_available target_delta min_dte max_dte min_premium_pct r h
    unfold find_cash_secured_put at h
    split at h
    next => exact Option.noConfusion h
    next current_price hq =>
      split at h
      · exact Option.noConfusion h
      · injection h with h
        subst h
        refine ⟨?_, ?_, rfl, ?_⟩
        · exact (List.sorted_insertionSort _ _).sublist (List.take_sublist 10 _)
        · simp [rankTop10, List.length_take]
        · intro a b h1 h2 hs
          exact List.pair_sublist_insertionSort (Or.inr ⟨h1, le_of_eq h2.symm⟩) hs

theorem ranking_sorted_top10_stable_witness :
    ccTieR.candidates.Sorted
        (rankRel CCCandidate.delta_diff CCCandidate.annualized_return) ∧
      ccTieR.candidates.length ≤ 10 ∧
      List.Sublist [ccTieA, ccTieB]
        (pyRankSort CCCandidate.delta_diff CCCandidate.annualized_return ccTieScan) ∧
      cspWitR.candidates.Sorted
        (rankRel CSPCandidate.delta_diff CSPCandidate.annualized_return) := by
  have h := ranking_sorted_top10_stable.1 ccTieMd 150 0.2 20 45 0.5 ccTieR
    (Option.some_get _).symm
  have h2 := ranking_sorted_top10_stable.2 cspWitMd 25000 0.2 20 45 0.5 cspWitR
    (Option.some_get _).symm
  exact ⟨h.1, h.2.1, h.2.2.2 ccTieA ccTieB (by decide) (by decide) (by decide), h2.1⟩

end PortfolioMcp
